import Mathlib

/-!
Verification development for the keymirror event translator (src/main.py).

The embedding models:
  - the static left-to-right key code table built at import time,
  - the stateful chord/tap translator `EventTranlator.__call__`,
  - the device loop `run_loop`.

Machine integers are modelled as `Nat`; wall-clock instants (`datetime.now()`)
are modelled as an explicit `Int` in milliseconds passed to each processing
step.  The Python `TypeError` that `datetime.now() - None` would raise is
modelled by returning `none`.  Forwarding an event to the next handler is
modelled by appending it to the output list of the step.
-/

/-- Event type code for key events (`evdev.ecodes.EV_KEY`). -/
def EV_KEY : Nat := 1

/-- The `names` dict from the source: punctuation characters to key names. -/
def names (c : Char) : Option String :=
  if c = ';' then some "SEMICOLON"
  else if c = ',' then some "COMMA"
  else if c = '.' then some "DOT"
  else if c = '/' then some "SLASH"
  else none

/-- Key codes of the `evdev.ecodes.KEY_<name>` constants (Linux
input-event-codes) for the names the table construction resolves. -/
def KEY : String → Nat
  | "Q" => 16 | "W" => 17 | "E" => 18 | "R" => 19 | "T" => 20
  | "Y" => 21 | "U" => 22 | "I" => 23 | "O" => 24 | "P" => 25
  | "A" => 30 | "S" => 31 | "D" => 32 | "F" => 33 | "G" => 34
  | "H" => 35 | "J" => 36 | "K" => 37 | "L" => 38 | "SEMICOLON" => 39
  | "Z" => 44 | "X" => 45 | "C" => 46 | "V" => 47 | "B" => 48
  | "N" => 49 | "M" => 50 | "COMMA" => 51 | "DOT" => 52 | "SLASH" => 53
  | _ => 0

/-- `char_to_ev` from the source: `getattr(evdev.ecodes, 'KEY_' + names.get(c, c).upper())`.
The names supplied by the `names` dict are already uppercase, so `.upper()`
only matters for the bare characters, where it is `Char.toUpper`. -/
def char_to_ev (c : Char) : Nat :=
  match names c with
  | some n => KEY n
  | none => KEY c.toUpper.toString

/-- The three fixed row pairs the table is built from. -/
def rowPairs : List (String × String) :=
  [("qwert", "yuiop"), ("asdfg", "hjkl;"), ("zxcvb", "nm,./")]

/-- Python dict assignment `d[k] = v` on an association list: replace the
value if the key is present, append otherwise. -/
def dictSet (l : List (Nat × Nat)) (k v : Nat) : List (Nat × Nat) :=
  if (l.lookup k).isSome then
    l.map (fun p => if p.1 = k then (k, v) else p)
  else
    l ++ [(k, v)]

/-- Python `del d[k]` on an association list. -/
def dictDel (l : List (Nat × Nat)) (k : Nat) : List (Nat × Nat) :=
  l.filter (fun p => p.1 != k)

/-- The `left_to_right` table: for each row pair, zip the left row with the
reversed right row and assign each resolved pair into the dict. -/
def left_to_right : List (Nat × Nat) :=
  rowPairs.foldl
    (fun tbl pr =>
      (pr.1.toList.zip pr.2.toList.reverse).foldl
        (fun t q => dictSet t (char_to_ev q.1) (char_to_ev q.2)) tbl)
    []

/-- An evdev input event: device timestamp (sec, usec), event type, key code,
and value (0 = release, 1 = press, 2 = repeat). -/
structure InputEvent where
  sec : Int
  usec : Int
  type : Nat
  code : Nat
  value : Nat
deriving DecidableEq

/-- The mutable instance state of `EventTranlator`: `_space_down`,
`_used` and `_active`. -/
structure TState where
  space_down : Option Int
  used : Bool
  active : List (Nat × Nat)
deriving DecidableEq

/-- The state of a freshly constructed `EventTranlator`. -/
def initState : TState := ⟨none, false, []⟩

/-- Lines 66-69 of the source: if space is down and the event is a new press
of a table key, register the translation and mark `_used`. -/
def register (s : TState) (e : InputEvent) : TState :=
  if s.space_down.isSome ∧ (left_to_right.lookup e.code).isSome ∧ e.value = 1 then
    { s with active := dictSet s.active e.code ((left_to_right.lookup e.code).getD 0),
             used := true }
  else s

/-- Lines 71-91 of the source, after the registration step: dispatch on
whether the code is an active translation, the space key, or anything else.
The active-translation branch forwards the rewritten event and then falls
through to the trailing forward on line 91, so it emits the event twice.
A space release with `_space_down = None` is the `TypeError` case (`none`). -/
def keyStep (s : TState) (now : Int) (e : InputEvent) : Option (List InputEvent × TState) :=
  match s.active.lookup e.code with
  | some newCode =>
    let s2 := if e.value = 0 then { s with active := dictDel s.active e.code } else s
    some ([{ e with code := newCode }, { e with code := newCode }], s2)
  | none =>
    if e.code = 57 then
      if e.value = 1 then
        some ([], { s with space_down := some (s.space_down.getD now), used := false })
      else if e.value = 2 then
        some ([], s)
      else if e.value = 0 then
        match s.space_down with
        | none => none
        | some t0 =>
          if now - t0 < 250 ∧ s.used = false then
            some ([{ e with value := 1 },
                   { sec := e.sec, usec := e.usec, type := 0, code := 0, value := 0 }, e],
                  { s with space_down := none })
          else
            some ([], { s with space_down := none })
      else
        some ([], s)
    else
      some ([e], s)

/-- `EventTranlator.__call__`: non-key events pass through unchanged; key
events go through registration and then the dispatch. -/
def EventTranlator.call (s : TState) (now : Int) (e : InputEvent) : Option (List InputEvent × TState) :=
  if e.type = EV_KEY then keyStep (register s e) now e
  else some ([e], s)

/-- Run the translator over a list of (processing time, event) pairs,
threading the state and concatenating the forwarded events. -/
def runEvents : TState → List (Int × InputEvent) → Option (List InputEvent × TState)
  | s, [] => some ([], s)
  | s, (now, e) :: rest =>
    match EventTranlator.call s now e with
    | none => none
    | some (out, s2) =>
      match runEvents s2 rest with
      | none => none
      | some (outs, sf) => some (out ++ outs, sf)

/-- The exit test in `run_loop`: a key event whose code is 113 (mute). -/
def isExitEvent (e : InputEvent) : Bool :=
  e.type == EV_KEY && e.code == 113

/-- The events `run_loop` feeds to the pipeline: every event read, in order,
up to and including the first exit event; buffered events after it are
drained and discarded. -/
def runLoopFed : List InputEvent → List InputEvent
  | [] => []
  | e :: rest => if isExitEvent e then [e] else e :: runLoopFed rest

/-- Whether `run_loop` breaks out of its loop on the given stream. -/
def runLoopBreaks : List InputEvent → Bool
  | [] => false
  | e :: rest => if isExitEvent e then true else runLoopBreaks rest

/-! ### Helper lemmas about the table and the association-list operations -/

lemma table_lookup_57 : left_to_right.lookup 57 = none := by decide

lemma isExitEvent_eq (e : InputEvent) :
    isExitEvent e = true ↔ e.type = 1 ∧ e.code = 113 := by
  simp [isExitEvent, EV_KEY]

lemma lookup_map_set (l : List (Nat × Nat)) (k v : Nat)
    (h : (l.lookup k).isSome = true) :
    (l.map (fun p => if p.1 = k then (k, v) else p)).lookup k = some v := by
  induction l with
  | nil =>
    simp only [List.lookup] at h
    exact Bool.noConfusion h
  | cons a t ih =>
    obtain ⟨a1, a2⟩ := a
    by_cases hak : a1 = k
    · subst hak
      rw [List.map_cons,
        show (if (a1, a2).1 = a1 then (a1, v) else (a1, a2)) = (a1, v) from if_pos rfl]
      simp only [List.lookup, beq_self_eq_true]
    · have hb : (k == a1) = false := beq_eq_false_iff_ne.mpr (Ne.symm hak)
      have h2 : (t.lookup k).isSome = true := by
        simpa only [List.lookup, hb] using h
      rw [List.map_cons,
        show (if (a1, a2).1 = k then (k, v) else (a1, a2)) = (a1, a2) from if_neg hak]
      simp only [List.lookup, hb]
      exact ih h2

lemma lookup_append_single (l : List (Nat × Nat)) (k v : Nat)
    (h : l.lookup k = none) :
    (l ++ [(k, v)]).lookup k = some v := by
  induction l with
  | nil => simp only [List.nil_append, List.lookup, beq_self_eq_true]
  | cons a t ih =>
    obtain ⟨a1, a2⟩ := a
    by_cases hak : (k == a1) = true
    · simp only [List.lookup, hak] at h
      exact Option.noConfusion h
    · have hb : (k == a1) = false := by simpa using hak
      have h2 : t.lookup k = none := by simpa only [List.lookup, hb] using h
      simp only [List.cons_append, List.lookup, hb]
      exact ih h2

lemma lookup_dictSet (l : List (Nat × Nat)) (k v : Nat) :
    (dictSet l k v).lookup k = some v := by
  unfold dictSet
  split
  · exact lookup_map_set l k v (by assumption)
  · rename_i h
    refine lookup_append_single l k v ?_
    cases hx : l.lookup k with
    | none => rfl
    | some w => rw [hx] at h; simp at h

lemma dictDel_single (k v : Nat) : dictDel [(k, v)] k = [] := by
  simp [dictDel]

/-! ### Shape lemmas for single translator steps -/

lemma call_nonkey (s : TState) (now : Int) (e : InputEvent) (ht : ¬ e.type = 1) :
    EventTranlator.call s now e = some ([e], s) := by
  simp [EventTranlator.call, EV_KEY, ht]

lemma call_trigger_press (s : TState) (now : Int) (e : InputEvent)
    (ht : e.type = 1) (hc : e.code = 57) (hv : e.value = 1)
    (ha : s.active.lookup 57 = none) :
    EventTranlator.call s now e =
      some ([], { s with space_down := some (s.space_down.getD now), used := false }) := by
  simp [EventTranlator.call, keyStep, register, EV_KEY, ht, hc, hv, ha, table_lookup_57]

lemma call_trigger_hold (s : TState) (now : Int) (e : InputEvent)
    (ht : e.type = 1) (hc : e.code = 57) (hv : e.value = 2)
    (ha : s.active.lookup 57 = none) :
    EventTranlator.call s now e = some ([], s) := by
  simp [EventTranlator.call, keyStep, register, EV_KEY, ht, hc, hv, ha, table_lookup_57]

lemma call_trigger_release (s : TState) (t0 now : Int) (e : InputEvent)
    (ht : e.type = 1) (hc : e.code = 57) (hv : e.value = 0)
    (ha : s.active.lookup 57 = none) (hs : s.space_down = some t0) :
    EventTranlator.call s now e =
      if now - t0 < 250 ∧ s.used = false then
        some ([{ e with value := 1 },
               { sec := e.sec, usec := e.usec, type := 0, code := 0, value := 0 }, e],
              { s with space_down := none })
      else
        some ([], { s with space_down := none }) := by
  simp [EventTranlator.call, keyStep, register, EV_KEY, ht, hc, hv, ha, hs]

lemma call_trigger_release_crash (s : TState) (now : Int) (e : InputEvent)
    (ht : e.type = 1) (hc : e.code = 57) (hv : e.value = 0)
    (ha : s.active.lookup 57 = none) (hs : s.space_down = none) :
    EventTranlator.call s now e = none := by
  simp [EventTranlator.call, keyStep, register, EV_KEY, ht, hc, hv, ha, hs]

lemma call_reg_press (s : TState) (now : Int) (e : InputEvent) (m : Nat)
    (ht : e.type = 1) (hs : s.space_down.isSome = true)
    (hm : left_to_right.lookup e.code = some m) (hv : e.value = 1) :
    EventTranlator.call s now e =
      some ([{ e with code := m }, { e with code := m }],
            { s with active := dictSet s.active e.code m, used := true }) := by
  simp [EventTranlator.call, keyStep, register, EV_KEY, ht, hs, hm, hv, lookup_dictSet]

lemma call_active_release (s : TState) (now : Int) (e : InputEvent) (m : Nat)
    (ht : e.type = 1) (hv : e.value = 0) (hm : s.active.lookup e.code = some m) :
    EventTranlator.call s now e =
      some ([{ e with code := m }, { e with code := m }],
            { s with active := dictDel s.active e.code }) := by
  simp [EventTranlator.call, keyStep, register, EV_KEY, ht, hv, hm]

lemma call_active_repeat (s : TState) (now : Int) (e : InputEvent) (m : Nat)
    (ht : e.type = 1) (hv : e.value = 2) (hm : s.active.lookup e.code = some m) :
    EventTranlator.call s now e =
      some ([{ e with code := m }, { e with code := m }], s) := by
  simp [EventTranlator.call, keyStep, register, EV_KEY, ht, hv, hm]

lemma call_pass (s : TState) (now : Int) (e : InputEvent)
    (ht : e.type = 1) (htab : left_to_right.lookup e.code = none)
    (ha : s.active.lookup e.code = none) (hc : ¬ e.code = 57) :
    EventTranlator.call s now e = some ([e], s) := by
  simp [EventTranlator.call, keyStep, register, EV_KEY, ht, htab, ha, hc]

/-! ### Helper lemmas about the device loop -/

lemma runLoopFed_exit (pre : List InputEvent) (e : InputEvent) (post : List InputEvent)
    (hpre : ∀ x ∈ pre, isExitEvent x = false) (he : isExitEvent e = true) :
    runLoopFed (pre ++ e :: post) = pre ++ [e] := by
  induction pre with
  | nil => simp [runLoopFed, he]
  | cons a t ih =>
    have ha : isExitEvent a = false := hpre a (by simp)
    have ht : ∀ x ∈ t, isExitEvent x = false := fun x hx => hpre x (by simp [hx])
    simp only [List.cons_append, runLoopFed, ha, Bool.false_eq_true, if_false,
      List.cons.injEq, true_and]
    exact ih ht

lemma runLoopBreaks_iff (s : List InputEvent) :
    runLoopBreaks s = true ↔ ∃ e, e ∈ s ∧ e.type = 1 ∧ e.code = 113 := by
  induction s with
  | nil => simp [runLoopBreaks]
  | cons a t ih =>
    by_cases ha : isExitEvent a = true
    · simp only [runLoopBreaks, ha, if_true]
      exact ⟨fun _ => ⟨a, List.mem_cons_self a t, (isExitEvent_eq a).mp ha⟩, fun _ => trivial⟩
    · have ha2 : isExitEvent a = false := by simpa using ha
      have ha3 : ¬(a.type = 1 ∧ a.code = 113) := fun hx => ha ((isExitEvent_eq a).mpr hx)
      simp only [runLoopBreaks, ha2, Bool.false_eq_true, if_false, ih]
      constructor
      · rintro ⟨e, he, hp⟩
        exact ⟨e, List.mem_cons_of_mem a he, hp⟩
      · rintro ⟨e, he, hp⟩
        rcases List.mem_cons.mp he with rfl | hmem
        · exact absurd hp ha3
        · exact ⟨e, hmem, hp⟩

/-! ### Claim theorems -/

/-- C1: for every trigger-key (space, code 57) release event processed while a
trigger press is recorded: if the elapsed time since the recorded press is
strictly below 250 ms and no translation was used since that press, the
translator forwards exactly three events in order — a press (value 1) of the
substitute key, a synchronization event, and the original release event — and
otherwise it forwards zero events; in both cases `space_down` is cleared to
`none`. -/
theorem c1_trigger_release_tap (s : TState) (t0 now : Int) (e : InputEvent)
    (hs : s.space_down = some t0) (ha : s.active.lookup 57 = none)
    (ht : e.type = 1) (hc : e.code = 57) (hv : e.value = 0) :
    EventTranlator.call s now e =
      if now - t0 < 250 ∧ s.used = false then
        some ([{ e with value := 1 },
               { sec := e.sec, usec := e.usec, type := 0, code := 0, value := 0 }, e],
              { s with space_down := none })
      else
        some ([], { s with space_down := none }) :=
  call_trigger_release s t0 now e ht hc hv ha hs

/-- Witness for C1: a quick tap (elapsed 100 ms, nothing used) forwards
exactly substitute-press, sync, and the original release. -/
theorem c1_witness :
    EventTranlator.call ⟨some 0, false, []⟩ 100 ⟨1, 2, 1, 57, 0⟩ =
      some ([⟨1, 2, 1, 57, 1⟩, ⟨1, 2, 0, 0, 0⟩, ⟨1, 2, 1, 57, 0⟩], ⟨none, false, []⟩) := by
  rw [c1_trigger_release_tap ⟨some 0, false, []⟩ 0 100 ⟨1, 2, 1, 57, 0⟩ rfl rfl rfl rfl rfl]
  decide

/-- C9: in a quick tap the synthesized press carries the same type and code as
the trigger-key release event itself (the substitute key is the trigger key),
followed by a 0/0/0 synchronization event and the unmodified release, all
stamped with the release event's device timestamp. -/
theorem c9_substitute_is_trigger (s : TState) (t0 now : Int) (e : InputEvent)
    (hs : s.space_down = some t0) (ha : s.active.lookup 57 = none)
    (ht : e.type = 1) (hc : e.code = 57) (hv : e.value = 0)
    (hfast : now - t0 < 250) (hunused : s.used = false) :
    EventTranlator.call s now e =
      some ([{ sec := e.sec, usec := e.usec, type := e.type, code := e.code, value := 1 },
             { sec := e.sec, usec := e.usec, type := 0, code := 0, value := 0 }, e],
            { s with space_down := none }) := by
  rw [call_trigger_release s t0 now e ht hc hv ha hs, if_pos ⟨hfast, hunused⟩]

/-- Witness for C9: concrete quick tap with distinct device timestamp (5, 6). -/
theorem c9_witness :
    EventTranlator.call ⟨some 10, false, []⟩ 20 ⟨5, 6, 1, 57, 0⟩ =
      some ([⟨5, 6, 1, 57, 1⟩, ⟨5, 6, 0, 0, 0⟩, ⟨5, 6, 1, 57, 0⟩], ⟨none, false, []⟩) :=
  c9_substitute_is_trigger ⟨some 10, false, []⟩ 10 20 ⟨5, 6, 1, 57, 0⟩ rfl rfl rfl rfl rfl
    (by decide) rfl

/-- C3 (code bug): from the initial state, press space at t=0, press Q
(code 16) at t=10, release Q at t=20.  Both the translated press and the
translated release are forwarded TWICE (the active-translation branch calls
the next handler and then falls through to the trailing forward on line 91),
while the claim and the spec say each such event is forwarded exactly once.
The removal of the entry at the release is as claimed. -/
theorem c3_double_forward :
    runEvents initState
      [(0, ⟨0, 0, 1, 57, 1⟩), (10, ⟨10, 0, 1, 16, 1⟩), (20, ⟨20, 0, 1, 16, 0⟩)] =
      some ([⟨10, 0, 1, 25, 1⟩, ⟨10, 0, 1, 25, 1⟩, ⟨20, 0, 1, 25, 0⟩, ⟨20, 0, 1, 25, 0⟩],
            ⟨some 0, true, []⟩) := by decide

/-- C6: for each of the three row pairs, the i-th key of the left row maps to
the (n-1-i)-th key of the right row, and the table's keys are pairwise
distinct (every domain key maps to exactly one key). -/
theorem c6_table_mirrors_rows :
    (∀ pr ∈ rowPairs, ∀ i, i < pr.1.toList.length →
      left_to_right.lookup (char_to_ev (pr.1.toList.getD i ' ')) =
        some (char_to_ev (pr.2.toList.getD (pr.2.toList.length - 1 - i) ' '))) ∧
    (left_to_right.map Prod.fst).Nodup := by decide

/-- Witness for C6: Q maps to P. -/
theorem c6_witness :
    left_to_right.lookup (char_to_ev 'q') = some (char_to_ev 'p') :=
  c6_table_mirrors_rows.1 ("qwert", "yuiop") (by decide) 0 (by decide)

/-- C7 counterexample: a trigger press arriving while already in TriggerHeld
(space down since t=0, `used = true` after a translated Q press) resets
`used` to `false`, so the state is NOT left unchanged as the claim states.
The state ⟨some 0, true, [(16, 25)]⟩ is reachable by space-press then
Q-press. -/
theorem c7_counterexample :
    EventTranlator.call ⟨some 0, true, [(16, 25)]⟩ 10 ⟨10, 0, 1, 57, 1⟩ =
      some ([], ⟨some 0, false, [(16, 25)]⟩) ∧
    (⟨some 0, false, [(16, 25)]⟩ : TState) ≠ ⟨some 0, true, [(16, 25)]⟩ := by decide

/-- C7 amended: on a trigger-key press (value 1) the event is swallowed,
`space_down` keeps its original timestamp when already held (and records `now`
when idle), but `used` is reset to `false` on EVERY trigger press, held or
not. -/
theorem c7_amended_trigger_press (s : TState) (now : Int) (e : InputEvent)
    (ht : e.type = 1) (hc : e.code = 57) (hv : e.value = 1)
    (ha : s.active.lookup 57 = none) :
    EventTranlator.call s now e =
      some ([], { s with space_down := some (s.space_down.getD now), used := false }) :=
  call_trigger_press s now e ht hc hv ha

/-- Witness for C7: a trigger press in the idle state records `now` and
resets `used`. -/
theorem c7_witness :
    EventTranlator.call ⟨none, true, []⟩ 5 ⟨0, 0, 1, 57, 1⟩ =
      some ([], ⟨some 5, false, []⟩) :=
  c7_amended_trigger_press ⟨none, true, []⟩ 5 ⟨0, 0, 1, 57, 1⟩ rfl rfl rfl rfl

/-- C4 counterexample: a trigger-key release arriving in the initial state
(no trigger press recorded, `space_down = none`) raises a `TypeError`
(`datetime.now() - None`), modelled as `none` — it does not degrade to
pass-through. -/
theorem c4_counterexample :
    EventTranlator.call initState 0 ⟨0, 0, 1, 57, 0⟩ = none := by decide

/-- C4 amended: processing an event never raises EXCEPT for a trigger-key
release (code 57, value 0, not an active translation) while no trigger press
is recorded; every other event is processed without an exception. -/
theorem c4_amended_no_crash (s : TState) (now : Int) (e : InputEvent) :
    (EventTranlator.call s now e).isSome = true ↔
      ¬(e.type = 1 ∧ e.code = 57 ∧ e.value = 0 ∧
        s.active.lookup e.code = none ∧ s.space_down = none) := by
  constructor
  · intro hsome hcrash
    obtain ⟨ht, hc, hv, ha, hsd⟩ := hcrash
    rw [call_trigger_release_crash s now e ht hc hv (hc ▸ ha) hsd] at hsome
    exact Bool.noConfusion hsome
  · intro hnc
    by_cases ht : e.type = 1
    · by_cases hv1 : e.value = 1
      · by_cases hreg : (s.space_down.isSome = true ∧
            (left_to_right.lookup e.code).isSome = true)
        · obtain ⟨m, hm⟩ := Option.isSome_iff_exists.mp hreg.2
          rw [call_reg_press s now e m ht hreg.1 hm hv1]; rfl
        · have hro : register s e = s := by
            unfold register
            rw [if_neg]
            intro hx
            exact hreg ⟨hx.1, hx.2.1⟩
          have hcall : EventTranlator.call s now e = keyStep s now e := by
            simp [EventTranlator.call, EV_KEY, ht, hro]
          rw [hcall]
          cases hl : s.active.lookup e.code with
          | some m => simp [keyStep, hl]
          | none =>
            by_cases hc : e.code = 57
            · rw [hc] at hl
              simp [keyStep, hl, hc, hv1]
            · simp [keyStep, hl, hc]
      · have hro : register s e = s := by
          unfold register
          rw [if_neg]
          intro hx
          exact hv1 hx.2.2
        have hcall : EventTranlator.call s now e = keyStep s now e := by
          simp [EventTranlator.call, EV_KEY, ht, hro]
        rw [hcall]
        cases hl : s.active.lookup e.code with
        | some m => simp [keyStep, hl]
        | none =>
          by_cases hc : e.code = 57
          · by_cases hv2 : e.value = 2
            · rw [hc] at hl
              simp [keyStep, hl, hc, hv1, hv2]
            · by_cases hv0 : e.value = 0
              · cases hx : s.space_down with
                | none => exact absurd ⟨ht, hc, hv0, hl, hx⟩ hnc
                | some t0 =>
                  rw [hc] at hl
                  by_cases hq : now - t0 < 250 ∧ s.used = false
                  · simp [keyStep, hl, hc, hv0, hx, hq]
                  · simp [keyStep, hl, hc, hv0, hx, hq]
              · rw [hc] at hl
                simp [keyStep, hl, hc, hv1, hv2, hv0]
          · simp [keyStep, hl, hc]
    · rw [call_nonkey s now e ht]; rfl

/-- Witness for C4: an ordinary key press is processed without an exception. -/
theorem c4_witness :
    (EventTranlator.call initState 0 ⟨0, 0, 1, 30, 1⟩).isSome = true :=
  (c4_amended_no_crash initState 0 ⟨0, 0, 1, 30, 1⟩).mpr (by decide)

/-- C5 counterexample: from the initial state run space-press(t=0),
Q-press(t=10) (sets `used`), space-release(t=20), space-press(t=30) (resets
`used`), Q-repeat(t=40).  The repeat of the still-active key Q is rewritten to
code 25 and forwarded while the trigger is down, yet `used` is `false`
afterwards — contradicting the claim that any rewrite applied while the
trigger is down leaves `used_since_trigger` true. -/
theorem c5_counterexample :
    runEvents initState
      [(0, ⟨0, 0, 1, 57, 1⟩), (10, ⟨10, 0, 1, 16, 1⟩), (20, ⟨20, 0, 1, 57, 0⟩),
       (30, ⟨30, 0, 1, 57, 1⟩), (40, ⟨40, 0, 1, 16, 2⟩)] =
      some ([⟨10, 0, 1, 25, 1⟩, ⟨10, 0, 1, 25, 1⟩, ⟨40, 0, 1, 25, 2⟩, ⟨40, 0, 1, 25, 2⟩],
            ⟨some 30, false, [(16, 25)]⟩) := by decide

/-- C5 amended: after any successfully processed event, `used` is true
exactly when the event newly registered a translation (a value-1 press of a
table key while the trigger is down), is false exactly when the event was an
effective trigger press (code 57, value 1, not an active translation), and is
unchanged by every other event — in particular a rewrite of a repeat or
release of an already-active key, with the trigger down or not, leaves it
unchanged and never sets it. -/
theorem c5_amended_used_flag (s : TState) (now : Int) (e : InputEvent)
    (r : List InputEvent × TState)
    (h : EventTranlator.call s now e = some r) :
    r.2.used =
      if e.type = 1 ∧ s.space_down.isSome = true ∧
          (left_to_right.lookup e.code).isSome = true ∧ e.value = 1 then true
      else if e.type = 1 ∧ e.code = 57 ∧ e.value = 1 ∧ s.active.lookup 57 = none then
        false
      else s.used := by
  by_cases ht : e.type = 1
  · by_cases hreg : s.space_down.isSome = true ∧
        (left_to_right.lookup e.code).isSome = true ∧ e.value = 1
    · obtain ⟨hsd, htab, hv1⟩ := hreg
      obtain ⟨m, hm⟩ := Option.isSome_iff_exists.mp htab
      rw [call_reg_press s now e m ht hsd hm hv1] at h
      injection h with hx
      subst hx
      rw [if_pos ⟨ht, hsd, htab, hv1⟩]
    · have hro : register s e = s := by
        unfold register
        rw [if_neg]
        intro hx
        exact hreg hx
      have hcall : EventTranlator.call s now e = keyStep s now e := by
        simp [EventTranlator.call, EV_KEY, ht, hro]
      rw [hcall] at h
      rw [if_neg (fun hx => hreg hx.2)]
      cases hl : s.active.lookup e.code with
      | some m =>
        simp only [keyStep, hl] at h
        injection h with hx
        subst hx
        have hni : ¬(e.type = 1 ∧ e.code = 57 ∧ e.value = 1 ∧
            s.active.lookup 57 = none) := by
          rintro ⟨-, hz1, -, hz2⟩
          rw [hz1] at hl
          rw [hl] at hz2
          exact Option.noConfusion hz2
        rw [if_neg hni]
        split <;> rfl
      | none =>
        by_cases hc : e.code = 57
        · rw [hc] at hl
          by_cases hv1 : e.value = 1
          · simp only [keyStep, hl, hc, hv1, if_true] at h
            injection h with hx
            subst hx
            rw [if_pos ⟨ht, hc, hv1, hl⟩]
          · by_cases hv2 : e.value = 2
            · simp only [keyStep, hl, hc, hv1, hv2, if_true, if_false] at h
              injection h with hx
              subst hx
              rw [if_neg (fun hx => hv1 hx.2.2.1)]
            · by_cases hv0 : e.value = 0
              · cases hx : s.space_down with
                | none =>
                  simp only [keyStep, hl, hc, hv1, hv2, hv0, hx] at h
                  exact Option.noConfusion h
                | some t0 =>
                  by_cases hq : now - t0 < 250 ∧ s.used = false
                  · simp only [keyStep, hl, hc, hv1, hv2, hv0, hx, hq, if_true] at h
                    injection h with hy
                    subst hy
                    rw [if_neg (fun hz => hv1 hz.2.2.1)]
                    exact hq.2.symm
                  · simp only [keyStep, hl, hc, hv1, hv2, hv0, hx, hq, if_false] at h
                    injection h with hy
                    subst hy
                    rw [if_neg (fun hz => hv1 hz.2.2.1)]
              · simp only [keyStep, hl, hc, hv1, hv2, hv0] at h
                injection h with hx
                subst hx
                rw [if_neg (fun hz => hv1 hz.2.2.1)]
        · simp only [keyStep, hl, hc] at h
          injection h with hx
          subst hx
          rw [if_neg (fun hz => hc hz.2.1)]
  · rw [call_nonkey s now e ht] at h
    injection h with hx
    subst hx
    rw [if_neg (fun hz => ht hz.1), if_neg (fun hz => ht hz.1)]

/-- Witness for C5: a fresh Q press with the trigger down falls in the
registration branch of the characterization, so `used` is true afterwards. -/
theorem c5_witness :
    ((⟨[⟨1, 0, 1, 25, 1⟩, ⟨1, 0, 1, 25, 1⟩], ⟨some 0, true, [(16, 25)]⟩⟩ :
        List InputEvent × TState).2).used = true := by
  have h := c5_amended_used_flag ⟨some 0, false, []⟩ 1 ⟨1, 0, 1, 16, 1⟩
      ⟨[⟨1, 0, 1, 25, 1⟩, ⟨1, 0, 1, 25, 1⟩], ⟨some 0, true, [(16, 25)]⟩⟩ (by decide)
  rw [h]
  decide

/-- C8 counterexample: a release event (value 0) of the exit key (code 113)
terminates the loop, although the claim says only a press-valued exit event
may terminate it. -/
theorem c8_counterexample :
    runLoopBreaks [⟨0, 0, 1, 113, 0⟩] = true ∧
    (∀ e ∈ ([⟨0, 0, 1, 113, 0⟩] : List InputEvent),
      ¬(e.type = 1 ∧ e.code = 113 ∧ e.value = 1)) := by decide

/-- C8 amended: the loop terminates iff the stream contains a key event with
the exit code 113 of ANY value, and when it terminates at the first such
event the remaining buffered events are discarded (only the prefix up to and
including that event is fed to the pipeline). -/
theorem c8_amended_exit_any_value (s : List InputEvent) :
    (runLoopBreaks s = true ↔ ∃ e, e ∈ s ∧ e.type = 1 ∧ e.code = 113) ∧
    (∀ pre e post, s = pre ++ e :: post → (∀ x ∈ pre, isExitEvent x = false) →
      isExitEvent e = true → runLoopFed s = pre ++ [e]) := by
  refine ⟨runLoopBreaks_iff s, ?_⟩
  intro pre e post hs hpre he
  rw [hs]
  exact runLoopFed_exit pre e post hpre he

/-- Witness for C8: a single exit-key press terminates the loop and is the
last event fed. -/
theorem c8_witness :
    runLoopBreaks [⟨0, 0, 1, 113, 1⟩] = true ∧
    runLoopFed [⟨0, 0, 1, 113, 1⟩] = [⟨0, 0, 1, 113, 1⟩] := by
  constructor
  · exact (c8_amended_exit_any_value [⟨0, 0, 1, 113, 1⟩]).1.mpr
      ⟨⟨0, 0, 1, 113, 1⟩, by simp, rfl, rfl⟩
  · have h := (c8_amended_exit_any_value [⟨0, 0, 1, 113, 1⟩]).2 [] ⟨0, 0, 1, 113, 1⟩ []
      rfl (by simp) rfl
    simpa using h

/-- C10: the device loop feeds every event up to and including the first
exit-key event to the pipeline (the pipeline is invoked before the exit check),
and the translator forwards the exit event itself unchanged to the sink. -/
theorem c10_exit_event_reaches_sink (s : TState) (now : Int)
    (pre post : List InputEvent) (e : InputEvent)
    (hpre : ∀ x ∈ pre, isExitEvent x = false) (he : isExitEvent e = true)
    (ha : s.active.lookup e.code = none) :
    runLoopFed (pre ++ e :: post) = pre ++ [e] ∧
    EventTranlator.call s now e = some ([e], s) := by
  obtain ⟨ht, hc⟩ := (isExitEvent_eq e).mp he
  refine ⟨runLoopFed_exit pre e post hpre he, ?_⟩
  refine call_pass s now e ht ?_ ha ?_
  · rw [hc]; decide
  · rw [hc]; decide

/-- Witness for C10: a single exit-key repeat event is fed and forwarded. -/
theorem c10_witness :
    runLoopFed [⟨0, 0, 1, 113, 2⟩] = [⟨0, 0, 1, 113, 2⟩] ∧
    EventTranlator.call initState 7 ⟨0, 0, 1, 113, 2⟩ =
      some ([⟨0, 0, 1, 113, 2⟩], initState) := by
  have h := c10_exit_event_reaches_sink initState 7 [] [] ⟨0, 0, 1, 113, 2⟩
    (by simp) rfl rfl
  exact ⟨by simpa using h.1, h.2⟩

/-- C2 counterexample: press Q (code 16) at t=0 while the trigger is up, press
the trigger at t=10, then release trigger/Q in the two orders at t=100/t=110.
Q is never a translated key (its press preceded the trigger), and the quick
tap fires, so the forwarded code sequences differ: the tap's synthesized
events land before the Q release in one order and after it in the other.
Both interleavings respect press-before-release per key, yet the forwarded
code sequences are not identical. -/
theorem c2_counterexample :
    (runEvents initState
        [(0, ⟨0, 0, 1, 16, 1⟩), (10, ⟨10, 0, 1, 57, 1⟩),
         (100, ⟨100, 0, 1, 57, 0⟩), (110, ⟨110, 0, 1, 16, 0⟩)]).map
        (fun r => r.1.map InputEvent.code) = some [16, 57, 0, 57, 16] ∧
    (runEvents initState
        [(0, ⟨0, 0, 1, 16, 1⟩), (10, ⟨10, 0, 1, 57, 1⟩),
         (100, ⟨100, 0, 1, 16, 0⟩), (110, ⟨110, 0, 1, 57, 0⟩)]).map
        (fun r => r.1.map InputEvent.code) = some [16, 16, 57, 0, 57] ∧
    ([16, 57, 0, 57, 16] : List Nat) ≠ [16, 16, 57, 0, 57] := by decide

/-- C2 amended: when the key press IS translated (it arrives while the
trigger is held and the key is in the table), the sequence of forwarded event
codes is identical whether the trigger release or the key release arrives
first, given the same slot timings. -/
theorem c2_amended_translated_key (k m : Nat)
    (t0 t1 t2 t3 sa ua sb ub sc uc sd ud : Int)
    (hk : left_to_right.lookup k = some m) :
    (runEvents initState
        [(t0, ⟨sa, ua, 1, 57, 1⟩), (t1, ⟨sb, ub, 1, k, 1⟩),
         (t2, ⟨sc, uc, 1, 57, 0⟩), (t3, ⟨sd, ud, 1, k, 0⟩)]).map
        (fun r => r.1.map InputEvent.code) =
    (runEvents initState
        [(t0, ⟨sa, ua, 1, 57, 1⟩), (t1, ⟨sb, ub, 1, k, 1⟩),
         (t2, ⟨sc, uc, 1, k, 0⟩), (t3, ⟨sd, ud, 1, 57, 0⟩)]).map
        (fun r => r.1.map InputEvent.code) := by
  have hk57 : ¬(k = 57) := by
    intro h
    rw [h, table_lookup_57] at hk
    exact Option.noConfusion hk
  have hb : ((57 : Nat) == k) = false := beq_eq_false_iff_ne.mpr (Ne.symm hk57)
  have hl57 : List.lookup 57 [(k, m)] = none := by simp only [List.lookup, hb]
  have hlk : List.lookup k [(k, m)] = some m := by
    simp only [List.lookup, beq_self_eq_true]
  have hdel : dictDel [(k, m)] k = [] := by simp [dictDel]
  have h1 : EventTranlator.call initState t0 ⟨sa, ua, 1, 57, 1⟩ =
      some ([], ⟨some t0, false, []⟩) :=
    call_trigger_press initState t0 ⟨sa, ua, 1, 57, 1⟩ rfl rfl rfl rfl
  have h2 : EventTranlator.call ⟨some t0, false, []⟩ t1 ⟨sb, ub, 1, k, 1⟩ =
      some ([⟨sb, ub, 1, m, 1⟩, ⟨sb, ub, 1, m, 1⟩], ⟨some t0, true, [(k, m)]⟩) := by
    have h := call_reg_press ⟨some t0, false, []⟩ t1 ⟨sb, ub, 1, k, 1⟩ m rfl rfl hk rfl
    rw [h]
    simp [dictSet, List.lookup]
  have h3A : EventTranlator.call ⟨some t0, true, [(k, m)]⟩ t2 ⟨sc, uc, 1, 57, 0⟩ =
      some ([], ⟨none, true, [(k, m)]⟩) := by
    rw [call_trigger_release ⟨some t0, true, [(k, m)]⟩ t0 t2 ⟨sc, uc, 1, 57, 0⟩
        rfl rfl rfl hl57 rfl,
      if_neg (fun hx => Bool.noConfusion hx.2)]
  have h4A : EventTranlator.call ⟨none, true, [(k, m)]⟩ t3 ⟨sd, ud, 1, k, 0⟩ =
      some ([⟨sd, ud, 1, m, 0⟩, ⟨sd, ud, 1, m, 0⟩], ⟨none, true, []⟩) := by
    have h := call_active_release ⟨none, true, [(k, m)]⟩ t3 ⟨sd, ud, 1, k, 0⟩ m rfl rfl hlk
    rw [h, hdel]
  have h3B : EventTranlator.call ⟨some t0, true, [(k, m)]⟩ t2 ⟨sc, uc, 1, k, 0⟩ =
      some ([⟨sc, uc, 1, m, 0⟩, ⟨sc, uc, 1, m, 0⟩], ⟨some t0, true, []⟩) := by
    have h := call_active_release ⟨some t0, true, [(k, m)]⟩ t2 ⟨sc, uc, 1, k, 0⟩ m rfl rfl hlk
    rw [h, hdel]
  have h4B : EventTranlator.call ⟨some t0, true, []⟩ t3 ⟨sd, ud, 1, 57, 0⟩ =
      some ([], ⟨none, true, []⟩) := by
    rw [call_trigger_release ⟨some t0, true, []⟩ t0 t3 ⟨sd, ud, 1, 57, 0⟩
        rfl rfl rfl rfl rfl,
      if_neg (fun hx => Bool.noConfusion hx.2)]
  simp only [runEvents, h1, h2, h3A, h4A, h3B, h4B]
  rfl

/-- Witness for C2: the amended order-independence instantiated at
the translated key Q (16 maps to 25) with concrete timings. -/
theorem c2_witness :
    (runEvents initState
        [(0, ⟨0, 0, 1, 57, 1⟩), (10, ⟨10, 0, 1, 16, 1⟩),
         (100, ⟨100, 0, 1, 57, 0⟩), (110, ⟨110, 0, 1, 16, 0⟩)]).map
        (fun r => r.1.map InputEvent.code) =
    (runEvents initState
        [(0, ⟨0, 0, 1, 57, 1⟩), (10, ⟨10, 0, 1, 16, 1⟩),
         (100, ⟨100, 0, 1, 16, 0⟩), (110, ⟨110, 0, 1, 57, 0⟩)]).map
        (fun r => r.1.map InputEvent.code) :=
  c2_amended_translated_key 16 25 0 10 100 110 0 0 10 0 100 0 110 0 (by decide)
